import Mathlib

/-!
Verification of the sales-analytics question-answering core
(`src/index.js` class `ModelContextProtocol` and `src/mcp-analyzer.js`
class `MCPAnalyzer`).

The JavaScript source is shallowly embedded below.  Strings are modelled
with `String` / `List Char`; the regular expressions of the source are
embedded as deterministic scanning functions that mirror the backtracking
behaviour of the JS regex engine on the patterns in question (for every
pattern used here the sub-expressions have pairwise disjoint character
classes, so the greedy/lazy choices of the engine are forced; where they
are not forced — the `\s+` before the lazy geographic capture — the
backtracking is implemented explicitly).  Case mapping is the ASCII one,
matching the ASCII questions the system handles.  The asynchronous
database executor is an oracle parameter `exec`.
-/

namespace SalesAnalytics

/-! ### Character and string helpers -/

/-- JS `\w` character class: `[A-Za-z0-9_]`. -/
def isWordChar (c : Char) : Bool := c.isAlphanum || c == '_'

/-- JS `\s` character class, restricted to the ASCII whitespace that occurs in questions. -/
def isSpaceChar (c : Char) : Bool := c == ' ' || c == '\t' || c == '\n' || c == '\r'

/-- Character class `[A-Za-z\s]` of the geographic capture group. -/
def isStateClassChar (c : Char) : Bool := c.isAlpha || isSpaceChar c

/-- The apostrophe character (U+0027), used when building SQL literals. -/
def apos : Char := Char.ofNat 39

/-- A one-character string holding an apostrophe. -/
def sq : String := String.mk [apos]

/-- Wraps a string in single quotes, as the template literals of the source do. -/
def quoted (s : String) : String := sq ++ s ++ sq

/-- Is `pat` a prefix of `l` (case-sensitive)? -/
def litPrefix : List Char → List Char → Bool
  | [], _ => true
  | _ :: _, [] => false
  | a :: as, b :: bs => a == b && litPrefix as bs

/-- Is `pat` a prefix of `l`, comparing case-insensitively (ASCII)?  `pat` is given lower-case. -/
def ciPrefix : List Char → List Char → Bool
  | [], _ => true
  | _ :: _, [] => false
  | a :: as, b :: bs => a == b.toLower && ciPrefix as bs

/-- Does `hay` contain `needle` as a contiguous substring?  Models JS `String.prototype.includes`. -/
def listContains : List Char → List Char → Bool
  | [], needle => needle.isEmpty
  | h :: t, needle => litPrefix needle (h :: t) || listContains t needle

/-- String-level substring test (JS `hay.includes(needle)`). -/
def containsSub (hay needle : String) : Bool := listContains hay.toList needle.toList

/-- ASCII lower-casing of a whole string (JS `toLowerCase` on ASCII input). -/
def toLowerString (s : String) : String := String.mk (s.toList.map Char.toLower)

/-- JS `String.prototype.trim` (whitespace stripped from both ends). -/
def strTrim (s : String) : String :=
  String.mk (((s.toList.dropWhile isSpaceChar).reverse.dropWhile isSpaceChar).reverse)

/-- Longest prefix of word characters. -/
def wordRun (l : List Char) : List Char := l.takeWhile isWordChar

/-- Longest prefix of whitespace characters. -/
def spaceRun (l : List Char) : List Char := l.takeWhile isSpaceChar

/-- Capture a non-empty maximal `\w+` run at this position (fails on an empty run). -/
def wordCapture (l : List Char) : Option (List Char) :=
  let w := wordRun l
  if w.isEmpty then none else some w

/-- Value of a digit run, as JS `parseInt` computes it for plain decimal digits. -/
def digitsToNat (l : List Char) : Nat := l.foldl (fun n c => n * 10 + (c.toNat - 48)) 0

/-! ### Data model (`ModelContextProtocol` constructor, `getContext`) -/

/-- One entry of a session's `questions` history (`updateContext` pushes these). -/
structure HistoryEntry where
  question : String
  timestamp : Nat
  type : String
deriving DecidableEq, Repr

/-- Per-session context as created by `getContext` and mutated by `updateContext`. -/
structure SessionContext where
  lastState : Option String
  lastYear : Option Nat
  lastMetric : String
  lastLimit : Nat
  questions : List HistoryEntry
deriving DecidableEq, Repr

/-- Fresh context installed by `getContext` on first use of a session id. -/
def defaultContext : SessionContext :=
  { lastState := none, lastYear := none, lastMetric := "sales", lastLimit := 5, questions := [] }

/-- A structured query plan, as built by `processQuestion` and filtered by `sanitizeQueryPlan`. -/
structure QueryPlan where
  select : List String
  from_ : String
  where_ : List String
  groupBy : List String
  orderBy : List String
  limit : Option Nat
deriving DecidableEq, Repr

/-- One result row of the external executor.  Only the columns the pipeline ever
reads are modelled; their values are never inspected by the properties below. -/
structure Row where
  customer_name : String
  month : String
  state : String
  total_sales : String
deriving DecidableEq, Repr, Inhabited

/-- Whitelisted schema of the `orders` source plus the allowed `DATE_TRUNC` name, in the
order `sanitizeQueryPlan` assembles its `validFields` set. -/
def validFields : List String :=
  ["order_date", "ship_date",
   "region", "customer_name", "segment", "country", "city",
   "state", "category", "sub_category", "product_name", "ship_mode",
   "sales", "quantity", "discount", "profit",
   "DATE_TRUNC"]

/-! ### Regex probes of `ModelContextProtocol` -/

/-- Lazy capture `([A-Za-z\s]+?)(?=\s+|$)` of the geographic pattern: the shortest
non-empty run of letters/spaces whose following character is whitespace or the end. -/
def lazyCap : List Char → Option (List Char)
  | [] => none
  | c :: rest =>
    if isStateClassChar c then
      match rest with
      | [] => some [c]
      | d :: _ =>
        if isSpaceChar d then some [c]
        else match lazyCap rest with
          | some cs => some (c :: cs)
          | none => none
    else none

/-- After the `in`/`for` keyword: `\s+` (greedy, with backtracking over its width,
longest first) followed by the lazy capture. -/
def trySpaces (r : List Char) : Nat → Option (List Char)
  | 0 => none
  | k + 1 =>
    match lazyCap (r.drop (k + 1)) with
    | some cap => some cap
    | none => trySpaces r k

/-- Match `(?:in|for)\s+([A-Za-z\s]+?)(?=\s+|$)` at this position (the `\b` has
already been checked by the scanner). -/
def inForAt (l : List Char) : Option (List Char) :=
  let after := fun (r : List Char) =>
    let n := (spaceRun r).length
    if n == 0 then none else trySpaces r n
  if ciPrefix "in".toList l then after (l.drop 2)
  else if ciPrefix "for".toList l then after (l.drop 3)
  else none

/-- Leftmost match of the geographic pattern `/\b(?:in|for)\s+([A-Za-z\s]+?)(?=\s+|$)/i`,
carrying the previous character for the `\b` check. -/
def stateScan : Option Char → List Char → Option (List Char)
  | _, [] => none
  | prev, c :: rest =>
    let bnd := match prev with
      | none => true
      | some p => !(isWordChar p)
    match (if bnd then inForAt (c :: rest) else none) with
    | some cap => some cap
    | none => stateScan (some c) rest

/-- The entity record produced by `extractEntitiesAndSource`.  The temporal /
categorical / metrics accumulators and the filters map are initialised and never
read anywhere on the `processQuestion` path, so only `geographic` is modelled. -/
structure Entities where
  geographic : Option String
deriving DecidableEq, Repr

/-- `extractEntitiesAndSource`: geographic entity from the `in|for` positional
pattern (trimmed capture), paired with the fixed source type. -/
def extractEntitiesAndSource (question : String) : Entities × String :=
  ({ geographic := (stateScan none question.toList).map (fun cap => strTrim (String.mk cap)) },
   "orders")

/-- Match `top\s+(\d+)\b` at this position (after the scanner's `\b` check). -/
def topAt (l : List Char) : Option Nat :=
  if ciPrefix "top".toList l then
    let r := l.drop 3
    let sp := spaceRun r
    if sp.isEmpty then none
    else
      let rest := r.drop sp.length
      let d := rest.takeWhile Char.isDigit
      if d.isEmpty then none
      else
        match rest.drop d.length with
        | [] => some (digitsToNat d)
        | e :: _ => if isWordChar e then none else some (digitsToNat d)
  else none

/-- Leftmost match of `/\btop\s+(\d+)\b/i`. -/
def topScan : Option Char → List Char → Option Nat
  | _, [] => none
  | prev, c :: rest =>
    let bnd := match prev with
      | none => true
      | some p => !(isWordChar p)
    match (if bnd then topAt (c :: rest) else none) with
    | some n => some n
    | none => topScan (some c) rest

/-- `extractLimit`: parse the ranking limit out of a `top N` phrase. -/
def extractLimit (question : String) : Option Nat := topScan none question.toList

/-- Match `(19|20)\d{2}\b` at this position (after the scanner's `\b` check). -/
def yearAt : List Char → Option Nat
  | a :: b :: c :: d :: rest =>
    if ((a == '1' && b == '9') || (a == '2' && b == '0')) && c.isDigit && d.isDigit then
      match rest with
      | [] => some (digitsToNat [a, b, c, d])
      | e :: _ => if isWordChar e then none else some (digitsToNat [a, b, c, d])
    else none
  | _ => none

/-- Leftmost match of `/\b(19|20)\d{2}\b/`. -/
def yearScan : Option Char → List Char → Option Nat
  | _, [] => none
  | prev, c :: rest =>
    let bnd := match prev with
      | none => true
      | some p => !(isWordChar p)
    match (if bnd then yearAt (c :: rest) else none) with
    | some n => some n
    | none => yearScan (some c) rest

/-- `extractYear`: first four-digit year of the form `19xx`/`20xx` in the question. -/
def extractYear (question : String) : Option Nat := yearScan none question.toList

/-! ### `extractComparisonStates` -/

/-- Mandatory `\s+`: fails when no whitespace is present, otherwise returns the
remainder after the (forced, maximal) whitespace run.  In the vs/between patterns
every `\s+` is followed by a disjoint character class, so the greedy run cannot
backtrack to a shorter width. -/
def guardSpaces (r : List Char) : Option (List Char) :=
  if (spaceRun r).isEmpty then none else some (r.drop (spaceRun r).length)

/-- Mandatory literal: fails unless `pat` is a prefix, otherwise returns the remainder. -/
def guardLit (pat : List Char) (r : List Char) : Option (List Char) :=
  if litPrefix pat r then some (r.drop pat.length) else none

/-- Tail `(?:vs|versus)\s+(\w+)` of the vs-pattern.  The alternation tries `vs`
first; `vs` and `versus` cannot both be prefixes at one position, so the JS
backtracking over the alternation collapses to this case split. -/
def vsTail (r : List Char) : Option (List Char) :=
  if litPrefix "vs".toList r then (guardSpaces (r.drop 2)).bind wordCapture
  else if litPrefix "versus".toList r then (guardSpaces (r.drop 6)).bind wordCapture
  else none

/-- Match `(\w+)\s+(?:vs|versus)\s+(\w+)` at this position. -/
def vsAt (l : List Char) : Option (List Char × List Char) :=
  (wordCapture l).bind fun w1 =>
  (guardSpaces (l.drop w1.length)).bind fun r2 =>
  (vsTail r2).map fun w2 => (w1, w2)

/-- Leftmost match of `/(\w+)\s+(?:vs|versus)\s+(\w+)/i` (on an already lower-cased string). -/
def vsMatchList : List Char → Option (List Char × List Char)
  | [] => none
  | c :: rest =>
    match vsAt (c :: rest) with
    | some r => some r
    | none => vsMatchList rest

/-- Match `between\s+(\w+)\s+and\s+(\w+)` at this position. -/
def betweenAt (l : List Char) : Option (List Char × List Char) :=
  (guardLit "between".toList l).bind fun r1 =>
  (guardSpaces r1).bind fun r2 =>
  (wordCapture r2).bind fun w1 =>
  (guardSpaces (r2.drop w1.length)).bind fun r3 =>
  (guardLit "and".toList r3).bind fun r4 =>
  (guardSpaces r4).bind fun r5 =>
  (wordCapture r5).map fun w2 => (w1, w2)

/-- Leftmost match of `/between\s+(\w+)\s+and\s+(\w+)/i` (on an already lower-cased string). -/
def betweenMatchList : List Char → Option (List Char × List Char)
  | [] => none
  | c :: rest =>
    match betweenAt (c :: rest) with
    | some r => some r
    | none => betweenMatchList rest

/-- Title-casing of one captured state token:
`state.trim().charAt(0).toUpperCase() + state.trim().slice(1).toLowerCase()`. -/
def capitalizeState (s : String) : String :=
  match (strTrim s).toList with
  | [] => ""
  | c :: cs => String.mk (c.toUpper :: cs.map Char.toLower)

/-- `extractComparisonStates`: lower-case the question, try the `X vs Y` pattern,
let a `between X and Y` match override it, then title-case every captured token. -/
def extractComparisonStates (question : String) : List String :=
  let ql := (toLowerString question).toList
  let states : List String :=
    match vsMatchList ql with
    | some (a, b) => [String.mk a, String.mk b]
    | none => []
  let states2 : List String :=
    match betweenMatchList ql with
    | some (a, b) => [String.mk a, String.mk b]
    | none => states
  states2.map capitalizeState

/-! ### Context enhancement and update -/

/-- Replace the first case-insensitive occurrence of `pat` (given lower-case) in `l`. -/
def replFirstCI (pat rep : List Char) : List Char → List Char
  | [] => []
  | c :: rest =>
    if ciPrefix pat (c :: rest) then rep ++ (c :: rest).drop pat.length
    else c :: replFirstCI pat rep rest

/-- `enhanceQuestionWithContext`: best-effort rewrite of follow-up questions.
Both rules require a non-empty history and a remembered `lastState` (JS truthiness
of `context.lastState`); otherwise the question is returned unchanged. -/
def enhanceQuestionWithContext (question : String) (context : SessionContext) : String :=
  let q := toLowerString question
  if context.questions.length > 0 then
    match context.lastState with
    | some st =>
      if !(containsSub q "in") && (containsSub q "top" || containsSub q "sales") then
        question ++ " in " ++ st
      else if containsSub q "how about" then
        String.mk (replFirstCI "how about".toList ("show " ++ context.lastMetric ++ " in").toList
          question.toList)
      else question
    | none => question
  else question

/-- Append one history entry and evict the oldest past five entries
(`context.questions.push(...)` followed by the length-guarded `shift()`). -/
def updateQuestions (qs : List HistoryEntry) (e : HistoryEntry) : List HistoryEntry :=
  let qs2 := qs ++ [e]
  if qs2.length > 5 then qs2.tail else qs2

/-- `updateContext`: overwrite `lastState` only when this request produced a
geographic entity, and push the new history entry.  (`result.data.year` is never
set by `processQuestion`, so `lastYear` is in fact never overwritten; the dead
assignment is omitted.) -/
def updateContext (context : SessionContext) (entities : Entities) (entry : HistoryEntry) :
    SessionContext :=
  { context with
    lastState := match entities.geographic with
      | some g => if g == "" then context.lastState else some g
      | none => context.lastState,
    questions := updateQuestions context.questions entry }

/-! ### Validation -/

/-- Does the question match `/;|\bDROP\b|\bDELETE\b|\bUPDATE\b|\bINSERT\b/i`?
`w` is given lower-case; both sides of the word need a `\b`. -/
def wordHitScan (w : List Char) : Option Char → List Char → Bool
  | _, [] => false
  | prev, c :: rest =>
    let bnd := match prev with
      | none => true
      | some p => !(isWordChar p)
    let here := bnd && ciPrefix w (c :: rest) &&
      (match (c :: rest).drop w.length with
       | [] => true
       | e :: _ => !(isWordChar e))
    here || wordHitScan w (some c) rest

/-- The SQL-injection probe of `validateQuestion`. -/
def injectionHit (question : String) : Bool :=
  question.toList.any (fun c => c == ';') ||
  wordHitScan "drop".toList none question.toList ||
  wordHitScan "delete".toList none question.toList ||
  wordHitScan "update".toList none question.toList ||
  wordHitScan "insert".toList none question.toList

/-- `validateQuestion`.  (On empty input the source reads
`this.errorTypes.INVALID_QUESTION`, a property of an undefined object, so it
throws either way; that throw is modelled as the `INVALID_QUESTION` error.) -/
def validateQuestion (question : String) : Except String Unit :=
  if question == "" then Except.error "INVALID_QUESTION"
  else if question.length > 500 then Except.error "Question too long (max 500 characters)"
  else if question.length < 3 then Except.error "Question too short"
  else if injectionHit question then Except.error "Invalid question content"
  else Except.ok ()

/-! ### Plan construction (`processQuestion`) -/

/-- The `DATE_TRUNC('month', order_date)` expression. -/
def monthExpr : String := "DATE_TRUNC(" ++ quoted "month" ++ ", order_date)"

/-- The `DATE_TRUNC('month', order_date) as month` select entry. -/
def monthSelect : String := monthExpr ++ " as month"

/-- The `SUM(sales) as total_sales` select entry. -/
def sumSalesSelect : String := "SUM(sales) as total_sales"

/-- Geographic equality filter, guarded by JS truthiness of `entities.geographic`
(both `null` and the empty string are falsy). -/
def geoWhere (g : Option String) : List String :=
  match g with
  | some s => if s == "" then [] else ["state = " ++ quoted s]
  | none => []

/-- Year filter (`extractYear` only ever produces values in 1900–2099, which are truthy). -/
def yearWhere (y : Option Nat) : List String :=
  match y with
  | some n => ["EXTRACT(YEAR FROM order_date) = " ++ toString n]
  | none => []

/-- `this.extractLimit(enhancedQuestion) || 5`: JS `||` also replaces a parsed `0`. -/
def limitOrFive (l : Option Nat) : Nat :=
  match l with
  | some n => if n == 0 then 5 else n
  | none => 5

/-- The pure planning phase of `processQuestion`: context enhancement, entity
extraction, branch selection, and construction of the query plan that is handed
to `executeQuery`, paired with the chart type the branch will attach to the
result.  Errors are the branch-local `throw`s.  The source never routes the plan
through `sanitizeQueryPlan` or the question through `validateQuestion`. -/
def plannedStep (context : SessionContext) (question : String) :
    Except String (QueryPlan × String) :=
  let enhancedQuestion := enhanceQuestionWithContext question context
  let entities := (extractEntitiesAndSource enhancedQuestion).1
  let lowered := toLowerString enhancedQuestion
  let isComparisonQuery :=
    containsSub lowered "compare" || containsSub lowered "vs" || containsSub lowered "versus"
  let year := extractYear enhancedQuestion
  if isComparisonQuery then
    let states := extractComparisonStates enhancedQuestion
    if states.length < 2 then Except.error "Could not identify states to compare"
    else
      let stateIn := "state IN (" ++ sq ++ String.intercalate (sq ++ ", " ++ sq) states ++
        sq ++ ")"
      let whereConditions := [stateIn] ++ yearWhere year
      Except.ok
        ({ select := [monthSelect, "state", sumSalesSelect],
           from_ := "orders",
           where_ := whereConditions,
           groupBy := [monthExpr, "state"],
           orderBy := ["month ASC, state"],
           limit := none }, "multi-line")
  else if containsSub lowered "top" then
    let limit := limitOrFive (extractLimit enhancedQuestion)
    let whereConditions := geoWhere entities.geographic ++ yearWhere year
    Except.ok
      ({ select := ["customer_name", sumSalesSelect],
         from_ := "orders",
         where_ := whereConditions,
         groupBy := ["customer_name"],
         orderBy := ["total_sales DESC"],
         limit := some limit }, "horizontal-bar")
  else
    let isTrendQuery := !(containsSub lowered "top")
    if isTrendQuery then
      Except.ok
        ({ select := [monthSelect, sumSalesSelect],
           from_ := "orders",
           where_ := geoWhere entities.geographic,
           groupBy := [monthExpr],
           orderBy := ["month ASC"],
           limit := none }, "line")
    else
      Except.ok
        ({ select := ["customer_name", sumSalesSelect],
           from_ := "orders",
           where_ := geoWhere entities.geographic,
           groupBy := ["customer_name"],
           orderBy := ["total_sales DESC"],
           limit := some 5 }, "horizontal-bar")

/-- `executeQuery` over an executor oracle: database errors and the zero-row case
are both rethrown wrapped in the `Database query failed` message. -/
def executeQuery (exec : QueryPlan → Except String (List Row)) (plan : QueryPlan) :
    Except String (List Row) :=
  match exec plan with
  | Except.error e => Except.error ("Database query failed: " ++ e)
  | Except.ok rows =>
    if rows.isEmpty then Except.error "Database query failed: No data found for the given query"
    else Except.ok rows

/-- `processQuestion`: plan, execute, and report the executed plan, the chart type
of the branch taken, and the raw rows.  The context update that follows in the
source is modelled separately by `updateContext`. -/
def processQuestion (exec : QueryPlan → Except String (List Row))
    (context : SessionContext) (question : String) :
    Except String (QueryPlan × String × List Row) :=
  match plannedStep context question with
  | Except.error e => Except.error e
  | Except.ok (plan, viz) =>
    match executeQuery exec plan with
    | Except.error e => Except.error e
    | Except.ok rows => Except.ok (plan, viz, rows)

/-! ### `sanitizeQueryPlan` -/

/-- `expr.split(' as ')[0]`: the prefix before the first occurrence of the
separator (the whole string when the separator is absent). -/
def beforeAsAux : List Char → List Char
  | [] => []
  | c :: rest =>
    if litPrefix " as ".toList (c :: rest) then []
    else c :: beforeAsAux rest

/-- String form of `beforeAsAux`. -/
def beforeAs (s : String) : String := String.mk (beforeAsAux s.toList)

/-- `replace(/^SUM\(|\)$/g, '')`: drop a leading `SUM(` and a trailing `)`
(each independently, when present). -/
def stripSum (s : String) : String :=
  let l := s.toList
  let l1 := if litPrefix "SUM(".toList l then l.drop 4 else l
  let l2 := if litPrefix ")".toList l1.reverse then l1.reverse.drop 1 |>.reverse else l1
  String.mk l2

/-- `replace(/.*\./, '')`: everything up to and including the last dot is removed. -/
def afterLastDot (s : String) : String :=
  String.mk ((s.toList.reverse.takeWhile (fun c => !(c == '.'))).reverse)

/-- The base field of a select-style expression, exactly as `isValidExpression`
computes it: alias suffix off, `SUM(` wrapper off, table alias off. -/
def baseFieldOf (expr : String) : String := afterLastDot (stripSum (beforeAs expr))

/-- `isValidExpression`: any expression containing `DATE_TRUNC` passes outright;
otherwise the base field must be whitelisted. -/
def isValidExpression (expr : String) : Bool :=
  if containsSub expr "DATE_TRUNC" then true
  else validFields.contains (baseFieldOf expr)

/-- `condition.split(/\s+/)[0]`: the first whitespace-delimited token. -/
def firstToken (condition : String) : String :=
  String.mk (condition.toList.takeWhile (fun c => !(isSpaceChar c)))

/-- The keep-predicate of the WHERE filter: first token, alias stripped, whitelisted. -/
def whereKeep (condition : String) : Bool :=
  validFields.contains (afterLastDot (firstToken condition))

/-- `field.replace(/ ASC| DESC/i, '')`: remove the first (leftmost, ` ASC` tried
before ` DESC` at each position) occurrence of either suffix word. -/
def removeAscDesc : List Char → List Char
  | [] => []
  | c :: rest =>
    if ciPrefix " asc".toList (c :: rest) then (c :: rest).drop 4
    else if ciPrefix " desc".toList (c :: rest) then (c :: rest).drop 5
    else c :: removeAscDesc rest

/-- The keep-predicate of the ORDER BY filter. -/
def orderKeep (field : String) : Bool :=
  isValidExpression (String.mk (removeAscDesc field.toList))

/-- `sanitizeQueryPlan`: filter every clause list against the whitelist; the
plan itself (source, limit) is otherwise returned unchanged.  Invalid entries
are dropped, never rejected (fail-open). -/
def sanitizeQueryPlan (queryPlan : QueryPlan) : QueryPlan :=
  { select := queryPlan.select.filter isValidExpression,
    from_ := queryPlan.from_,
    where_ := queryPlan.where_.filter whereKeep,
    groupBy := queryPlan.groupBy.filter isValidExpression,
    orderBy := queryPlan.orderBy.filter orderKeep,
    limit := queryPlan.limit }

/-! ### `MCPAnalyzer`: state list, data characteristics, visualization selection -/

/-- The fixed 50-entry constituent-state list of `MCPAnalyzer.extractEntities`,
in source order. -/
def stateValues : List String :=
  ["California", "Texas", "New York", "Florida", "Illinois",
   "Ohio", "Pennsylvania", "Georgia", "North Carolina",
   "Michigan", "New Jersey", "Virginia", "Washington",
   "Arizona", "Massachusetts", "Tennessee", "Indiana",
   "Missouri", "Maryland", "Wisconsin", "Colorado",
   "Minnesota", "South Carolina", "Alabama", "Louisiana",
   "Kentucky", "Oregon", "Oklahoma", "Connecticut",
   "Iowa", "Mississippi", "Arkansas", "Utah",
   "Nevada", "Kansas", "New Mexico", "West Virginia",
   "Nebraska", "Idaho", "Hawaii", "Maine",
   "New Hampshire", "Rhode Island", "Montana", "Delaware",
   "South Dakota", "North Dakota", "Alaska", "Vermont",
   "Wyoming"]

/-- The state-capture loop of `MCPAnalyzer.extractEntities`: the first state of
the fixed list (list order, not text order) contained in the question.  The
boolean entity flags the function also sets are not consulted by any property
below and are omitted. -/
def extractEntitiesState (question : String) : Option String :=
  stateValues.find? (fun s => containsSub question s)

/-- The question-type flags produced by `analyzeQuestionType`. -/
structure QuestionTypes where
  comparison : Bool
  trend : Bool
  distribution : Bool
  composition : Bool
  subType : Option String
deriving DecidableEq, Repr

/-- The metric flags of `analyzeMetricType` (passed to, but never read by,
`selectVisualization`). -/
structure MetricType where
  isCurrency : Bool
  isQuantity : Bool
  isPercentage : Bool
  isTemporal : Bool
deriving DecidableEq, Repr, Inhabited

/-- The data-shape summary of `analyzeDataCharacteristics`. -/
structure DataCharacteristics where
  recordCount : Nat
  hasTimeComponent : Bool
  uniqueCategories : Nat
  isHierarchical : Bool
deriving DecidableEq, Repr

/-- Chart configuration fields occurring across the branches of `selectVisualization`. -/
structure VizConfig where
  sorted : Option Bool := none
  showValues : Option Bool := none
  animation : Option Bool := none
  showPoints : Option Bool := none
  showTooltip : Option Bool := none
  bins : Option Nat := none
  grouped : Option Bool := none
  showPercentage : Option Bool := none
  donut : Option Bool := none
deriving DecidableEq, Repr

/-- A chart choice returned by `selectVisualization`. -/
structure VizChoice where
  type : String
  orientation : Option String := none
  config : VizConfig
deriving DecidableEq, Repr

/-- Largest `k ≤ bound` with `k * k ≤ n` (structural search, so that concrete
bin counts evaluate inside the kernel). -/
def floorSqrtAux (n : Nat) : Nat → Nat
  | 0 => 0
  | k + 1 => if (k + 1) * (k + 1) ≤ n then k + 1 else floorSqrtAux n k

/-- Integer square root (floor). -/
def floorSqrt (n : Nat) : Nat := floorSqrtAux n n

/-- `Math.ceil(Math.sqrt(n))` on a natural record count. -/
def ceilSqrt (n : Nat) : Nat :=
  if floorSqrt n * floorSqrt n == n then floorSqrt n else floorSqrt n + 1

/-- `selectVisualization`: the decision tree, top to bottom, first match wins. -/
def selectVisualization (visType : QuestionTypes) (metricType : MetricType)
    (dataCharacteristics : DataCharacteristics) : VizChoice :=
  let _ := metricType
  if visType.comparison && visType.subType == some "ranking" then
    { type := "bar", orientation := some "horizontal",
      config := { sorted := some true, showValues := some true, animation := some true } }
  else if visType.comparison && visType.subType == some "timeBased" then
    { type := "line",
      config := { showPoints := some true, showTooltip := some true, animation := some true } }
  else if visType.trend && dataCharacteristics.hasTimeComponent then
    { type := "line",
      config := { showPoints := some true, showTooltip := some true, animation := some true } }
  else if visType.distribution then
    if dataCharacteristics.uniqueCategories > 10 then
      { type := "histogram",
        config := { bins := some (Nat.min 20 (ceilSqrt dataCharacteristics.recordCount)) } }
    else
      { type := "bar", orientation := some "vertical", config := { grouped := some true } }
  else if visType.composition then
    if dataCharacteristics.uniqueCategories ≤ 5 then
      { type := "pie", config := { showPercentage := some true, donut := some false } }
    else
      { type := "treemap", config := { showValues := some true } }
  else
    { type := "bar", orientation := some "vertical", config := { showValues := some true } }

/-! ### Concrete artefacts shared by several properties -/

/-- Scenario A question. -/
def scenarioAQuestion : String := "Show top 5 customers in California"

/-- The ranking plan `processQuestion` builds for Scenario A. -/
def scenarioAPlan : QueryPlan :=
  { select := ["customer_name", "SUM(sales) as total_sales"],
    from_ := "orders",
    where_ := ["state = " ++ quoted "California"],
    groupBy := ["customer_name"],
    orderBy := ["total_sales DESC"],
    limit := some 5 }

/-- The trend plan built when no geographic entity is extracted. -/
def bareTrendPlan : QueryPlan :=
  { select := [monthSelect, sumSalesSelect],
    from_ := "orders",
    where_ := [],
    groupBy := [monthExpr],
    orderBy := ["month ASC"],
    limit := none }

/-- A one-row executor oracle, used to witness properties that assume non-empty results. -/
def execOne : QueryPlan → Except String (List Row) := fun _ => Except.ok [default]

/-! ### Helper lemmas -/

theorem takeWhile_all {α : Type} (p : α → Bool) : ∀ l : List α, ((l.takeWhile p).all p) = true
  | [] => rfl
  | c :: rest => by
    by_cases h : p c
    · simp [List.takeWhile_cons, h, takeWhile_all p rest]
    · simp [List.takeWhile_cons, h]

theorem wordCapture_spec {l w : List Char} (h : wordCapture l = some w) :
    w ≠ [] ∧ w.all isWordChar = true := by
  unfold wordCapture at h
  by_cases he : (wordRun l).isEmpty
  · simp [he] at h
  · simp [he] at h
    subst h
    refine ⟨fun hnil => ?_, takeWhile_all _ _⟩
    rw [hnil] at he
    exact he rfl

theorem vsTail_spec {r w : List Char} (h : vsTail r = some w) :
    w ≠ [] ∧ w.all isWordChar = true := by
  unfold vsTail at h
  split at h
  · obtain ⟨r2, -, hw⟩ := Option.bind_eq_some.mp h
    exact wordCapture_spec hw
  · split at h
    · obtain ⟨r2, -, hw⟩ := Option.bind_eq_some.mp h
      exact wordCapture_spec hw
    · exact absurd h (by simp)

theorem vsAt_spec {l : List Char} {a b : List Char} (h : vsAt l = some (a, b)) :
    (a ≠ [] ∧ a.all isWordChar = true) ∧ (b ≠ [] ∧ b.all isWordChar = true) := by
  unfold vsAt at h
  obtain ⟨w1, hw1, h⟩ := Option.bind_eq_some.mp h
  obtain ⟨r2, -, h⟩ := Option.bind_eq_some.mp h
  obtain ⟨w2, hw2, heq⟩ := Option.map_eq_some'.mp h
  cases heq
  exact ⟨wordCapture_spec hw1, vsTail_spec hw2⟩

theorem vsMatchList_spec : ∀ {l : List Char} {a b : List Char},
    vsMatchList l = some (a, b) →
    (a ≠ [] ∧ a.all isWordChar = true) ∧ (b ≠ [] ∧ b.all isWordChar = true)
  | [], _, _, h => by simp [vsMatchList] at h
  | c :: rest, a, b, h => by
    rw [vsMatchList] at h
    cases hv : vsAt (c :: rest) with
    | some r => rw [hv] at h; cases h; exact vsAt_spec (by rw [hv])
    | none => rw [hv] at h; exact vsMatchList_spec h

theorem betweenAt_spec {l : List Char} {a b : List Char} (h : betweenAt l = some (a, b)) :
    (a ≠ [] ∧ a.all isWordChar = true) ∧ (b ≠ [] ∧ b.all isWordChar = true) := by
  unfold betweenAt at h
  obtain ⟨r1, -, h⟩ := Option.bind_eq_some.mp h
  obtain ⟨r2, -, h⟩ := Option.bind_eq_some.mp h
  obtain ⟨w1, hw1, h⟩ := Option.bind_eq_some.mp h
  obtain ⟨r3, -, h⟩ := Option.bind_eq_some.mp h
  obtain ⟨r4, -, h⟩ := Option.bind_eq_some.mp h
  obtain ⟨r5, -, h⟩ := Option.bind_eq_some.mp h
  obtain ⟨w2, hw2, heq⟩ := Option.map_eq_some'.mp h
  cases heq
  exact ⟨wordCapture_spec hw1, wordCapture_spec hw2⟩

theorem betweenMatchList_spec : ∀ {l : List Char} {a b : List Char},
    betweenMatchList l = some (a, b) →
    (a ≠ [] ∧ a.all isWordChar = true) ∧ (b ≠ [] ∧ b.all isWordChar = true)
  | [], _, _, h => by simp [betweenMatchList] at h
  | c :: rest, a, b, h => by
    rw [betweenMatchList] at h
    cases hv : betweenAt (c :: rest) with
    | some r => rw [hv] at h; cases h; exact betweenAt_spec (by rw [hv])
    | none => rw [hv] at h; exact betweenMatchList_spec h

theorem find?_first {α : Type} (p : α → Bool) :
    ∀ (l : List α) (a : α), a ∈ l → p a = true →
    ∃ t pre post, l.find? p = some t ∧ p t = true ∧ l = pre ++ t :: post ∧
      ∀ u ∈ pre, p u = false := by
  intro l
  induction l with
  | nil => intro a ha; cases ha
  | cons h t ih =>
    intro a ha hpa
    cases hp : p h with
    | true =>
      exact ⟨h, [], t, by simp [List.find?_cons, hp], hp, rfl, by simp⟩
    | false =>
      have ha' : a ∈ t := by
        rcases List.mem_cons.mp ha with rfl | h'
        · rw [hp] at hpa; cases hpa
        · exact h'
      obtain ⟨t', pre, post, hf, hpt, hl, hpre⟩ := ih a ha' hpa
      refine ⟨t', h :: pre, post, ?_, hpt, by rw [hl]; rfl, ?_⟩
      · simp [List.find?_cons, hp, hf]
      · intro u hu
        rcases List.mem_cons.mp hu with rfl | hu'
        · exact hp
        · exact hpre u hu'

/-! ### Claim theorems -/

/-- C1: for `"Show top 5 customers in California"` with a fresh session context,
assuming the executor returns a non-empty row sequence, `processQuestion`
extracts the geographic entity `California`, hands the executor exactly the
ranking plan `{select:[customer_name, SUM(sales) as total_sales],
where:[state = 'California'], groupBy:[customer_name],
orderBy:[total_sales DESC], limit:5}` over source `orders`, and attaches chart
type `horizontal-bar`. -/
theorem scenarioA_ranking_plan (exec : QueryPlan → Except String (List Row)) (rows : List Row)
    (hexec : exec scenarioAPlan = Except.ok rows) (hrows : rows ≠ []) :
    (extractEntitiesAndSource (enhanceQuestionWithContext scenarioAQuestion
      defaultContext)).1.geographic = some "California" ∧
    (extractEntitiesAndSource (enhanceQuestionWithContext scenarioAQuestion
      defaultContext)).2 = "orders" ∧
    processQuestion exec defaultContext scenarioAQuestion =
      Except.ok (scenarioAPlan, "horizontal-bar", rows) := by
  refine ⟨rfl, rfl, ?_⟩
  have hplan : plannedStep defaultContext scenarioAQuestion =
      Except.ok (scenarioAPlan, "horizontal-bar") := rfl
  have hempty : rows.isEmpty = false := by
    cases rows with
    | nil => exact absurd rfl hrows
    | cons a t => rfl
  simp only [processQuestion, executeQuery, hplan, hexec, hempty]
  rfl

/-- Witness for `scenarioA_ranking_plan` at the one-row oracle `execOne`. -/
theorem scenarioA_ranking_plan_witness :
    (execOne scenarioAPlan = Except.ok [(default : Row)] ∧
      ([(default : Row)] : List Row) ≠ []) ∧
    ((extractEntitiesAndSource (enhanceQuestionWithContext scenarioAQuestion
        defaultContext)).1.geographic = some "California" ∧
      (extractEntitiesAndSource (enhanceQuestionWithContext scenarioAQuestion
        defaultContext)).2 = "orders" ∧
      processQuestion execOne defaultContext scenarioAQuestion =
        Except.ok (scenarioAPlan, "horizontal-bar", [(default : Row)])) :=
  ⟨⟨rfl, by simp⟩, scenarioA_ranking_plan execOne [default] rfl (by simp)⟩

/-- C2: the claim that every executed plan has first passed through
`sanitizeQueryPlan` is false: `processQuestion` never invokes the sanitizer.
For Scenario A it hands the executor `scenarioAPlan`, whose `orderBy` entry
`total_sales DESC` fails the sanitizer's own keep-predicate, so `scenarioAPlan`
is not even a possible output of `sanitizeQueryPlan` — no plan equal to it can
ever leave the sanitizer. -/
theorem executed_plan_never_sanitized :
    (∀ p : QueryPlan, sanitizeQueryPlan p ≠ scenarioAPlan) ∧
    plannedStep defaultContext scenarioAQuestion =
      Except.ok (scenarioAPlan, "horizontal-bar") ∧
    (sanitizeQueryPlan scenarioAPlan).orderBy = [] := by
  refine ⟨?_, rfl, rfl⟩
  intro p h
  have h2 : p.orderBy.filter orderKeep = ["total_sales DESC"] :=
    congrArg QueryPlan.orderBy h
  have h4 : "total_sales DESC" ∈ p.orderBy.filter orderKeep := by
    rw [h2]; exact List.mem_singleton_self _
  have h5 : orderKeep "total_sales DESC" = true := (List.mem_filter.mp h4).2
  have h6 : orderKeep "total_sales DESC" = false := rfl
  rw [h6] at h5
  exact Bool.noConfusion h5

/-- C3: the claim that malformed/injection questions are rejected before any
extraction is false on the code: `processQuestion` never calls
`validateQuestion`.  For `"DROP TABLE orders;"` the validator (were it called)
rejects with the injection-pattern error, yet `processQuestion` builds the
trend query plan and executes it. -/
theorem injection_question_not_rejected :
    validateQuestion "DROP TABLE orders;" = Except.error "Invalid question content" ∧
    plannedStep defaultContext "DROP TABLE orders;" = Except.ok (bareTrendPlan, "line") ∧
    processQuestion execOne defaultContext "DROP TABLE orders;" =
      Except.ok (bareTrendPlan, "line", [(default : Row)]) :=
  ⟨rfl, rfl, rfl⟩

/-- C4 counterexample: `sanitizeQueryPlan` does not remove every entry whose
base field is off the whitelist — any expression containing the substring
`DATE_TRUNC` is kept unconditionally, so the groupBy entry
`DATE_TRUNC('month', secret_field)` survives although its base field is not
whitelisted. -/
theorem sanitizer_keeps_smuggled_field :
    (sanitizeQueryPlan
      { select := [], from_ := "orders", where_ := [],
        groupBy := ["DATE_TRUNC(" ++ quoted "month" ++ ", secret_field)"],
        orderBy := [], limit := none }).groupBy =
      ["DATE_TRUNC(" ++ quoted "month" ++ ", secret_field)"] ∧
    validFields.contains (baseFieldOf ("DATE_TRUNC(" ++ quoted "month" ++ ", secret_field)"))
      = false :=
  ⟨rfl, rfl⟩

/-- C4 as amended: `sanitizeQueryPlan` keeps a select/groupBy entry containing
`DATE_TRUNC` unconditionally and otherwise keeps it exactly when its base field
(alias suffix off, `SUM(` wrapper off, table alias off) is whitelisted; WHERE
entries are judged by their first whitespace-delimited token; the sanitizer is
a total function that filters each clause list and never rejects a plan; and
the select list `[customer_name, SUM(sales) as total_sales, secret_field]`
reduces to exactly `[customer_name, SUM(sales) as total_sales]`. -/
theorem sanitizer_filter_characterization :
    (∀ expr : String, containsSub expr "DATE_TRUNC" = true → isValidExpression expr = true) ∧
    (∀ expr : String, containsSub expr "DATE_TRUNC" = false →
      isValidExpression expr = validFields.contains (baseFieldOf expr)) ∧
    (∀ p : QueryPlan, sanitizeQueryPlan p =
      { select := p.select.filter isValidExpression,
        from_ := p.from_,
        where_ := p.where_.filter whereKeep,
        groupBy := p.groupBy.filter isValidExpression,
        orderBy := p.orderBy.filter orderKeep,
        limit := p.limit }) ∧
    sanitizeQueryPlan
      { select := ["customer_name", sumSalesSelect, "secret_field"], from_ := "orders",
        where_ := [], groupBy := [], orderBy := [], limit := none } =
      { select := ["customer_name", sumSalesSelect], from_ := "orders",
        where_ := [], groupBy := [], orderBy := [], limit := none } := by
  refine ⟨fun expr h => ?_, fun expr h => ?_, fun p => rfl, rfl⟩
  · simp [isValidExpression, h]
  · simp [isValidExpression, h]

/-- Witness for `sanitizer_filter_characterization` at the entry `secret_field`. -/
theorem sanitizer_filter_characterization_witness :
    containsSub "secret_field" "DATE_TRUNC" = false ∧
    isValidExpression "secret_field" = validFields.contains (baseFieldOf "secret_field") :=
  ⟨rfl, sanitizer_filter_characterization.2.1 "secret_field" rfl⟩

/-- C5: whenever the question contains a recognised constituent-state name as a
substring, `MCPAnalyzer.extractEntities` captures the first such name in the
fixed 50-entry list order — there is a list split `pre ++ t :: post` with every
state before `t` absent from the question — regardless of where the names occur
in the text. -/
theorem geographic_first_in_list_order (question s : String)
    (hmem : s ∈ stateValues) (hsub : containsSub question s = true) :
    ∃ t pre post, extractEntitiesState question = some t ∧
      containsSub question t = true ∧ stateValues = pre ++ t :: post ∧
      ∀ u ∈ pre, containsSub question u = false := by
  unfold extractEntitiesState
  exact find?_first (fun s => containsSub question s) stateValues s hmem hsub

/-- Witness for `geographic_first_in_list_order`: the question mentions Ohio
first in the text and California later, yet list order picks California. -/
theorem geographic_first_in_list_order_witness :
    ("Ohio" ∈ stateValues ∧
      containsSub "Show top customers in Ohio and California" "Ohio" = true) ∧
    extractEntitiesState "Show top customers in Ohio and California" = some "California" ∧
    (∃ t pre post,
      extractEntitiesState "Show top customers in Ohio and California" = some t ∧
      containsSub "Show top customers in Ohio and California" t = true ∧
      stateValues = pre ++ t :: post ∧
      ∀ u ∈ pre, containsSub "Show top customers in Ohio and California" u = false) :=
  ⟨⟨by decide, by decide⟩, by decide,
    geographic_first_in_list_order "Show top customers in Ohio and California" "Ohio"
      (by decide) (by decide)⟩

/-- C6: `"compare top customers in Texas and Ohio"` triggers both the comparison
probe (`compare`) and the ranking probe (`top`), but the comparison branch is
checked first, so `processQuestion` enters it (and fails there because no
two-state pattern matches) — the ranking plan is never built and nothing is
handed to the executor. -/
theorem compare_top_classified_comparison :
    containsSub (toLowerString "compare top customers in Texas and Ohio") "compare" = true ∧
    containsSub (toLowerString "compare top customers in Texas and Ohio") "top" = true ∧
    ∀ exec : QueryPlan → Except String (List Row),
      processQuestion exec defaultContext "compare top customers in Texas and Ohio" =
        Except.error "Could not identify states to compare" :=
  ⟨rfl, rfl, fun _ => rfl⟩

/-- C7 counterexample: for `"Show sales trend for 2017"` the year 2017 is
extracted, but the trend branch builds its plan with an empty WHERE list — the
year filter the claim requires is absent. -/
theorem trend_2017_no_year_filter :
    plannedStep defaultContext "Show sales trend for 2017" =
      Except.ok (bareTrendPlan, "line") ∧
    "EXTRACT(YEAR FROM order_date) = 2017" ∉ bareTrendPlan.where_ ∧
    extractYear "Show sales trend for 2017" = some 2017 :=
  ⟨rfl, by decide, rfl⟩

/-- C7 as amended: `"Show sales trend for 2017"` extracts year 2017 and builds
the monthly trend plan — grouped by `DATE_TRUNC('month', order_date)`, ordered
by month ascending, no limit, rendered as a `line` chart — but with an empty
WHERE clause: the trend branch ignores the extracted year. -/
theorem trend_2017_plan_shape :
    extractYear "Show sales trend for 2017" = some 2017 ∧
    plannedStep defaultContext "Show sales trend for 2017" =
      Except.ok (bareTrendPlan, "line") ∧
    bareTrendPlan.where_ = [] ∧
    bareTrendPlan.groupBy = [monthExpr] ∧
    bareTrendPlan.orderBy = ["month ASC"] ∧
    bareTrendPlan.limit = none :=
  ⟨rfl, rfl, rfl, rfl, rfl, rfl⟩

/-- C8: starting from the fresh context's empty history, any sequence of
`updateContext` history pushes leaves at most 5 entries, and six consecutive
updates leave exactly the last five entries — the oldest is evicted first. -/
theorem history_capped_at_five :
    (∀ es : List HistoryEntry, ((es.foldl updateQuestions []).length ≤ 5)) ∧
    (∀ e1 e2 e3 e4 e5 e6 : HistoryEntry,
      [e1, e2, e3, e4, e5, e6].foldl updateQuestions [] = [e2, e3, e4, e5, e6]) := by
  constructor
  · have step : ∀ (qs : List HistoryEntry) (e : HistoryEntry),
        qs.length ≤ 5 → (updateQuestions qs e).length ≤ 5 := by
      intro qs e h
      simp only [updateQuestions]
      split
      · simp only [List.length_tail, List.length_append, List.length_cons, List.length_nil]
        omega
      · rename_i hlen
        simp only [List.length_append, List.length_cons, List.length_nil, gt_iff_lt,
          Nat.not_lt] at hlen ⊢
        omega
    have aux : ∀ (es : List HistoryEntry) (qs : List HistoryEntry),
        qs.length ≤ 5 → ((es.foldl updateQuestions qs).length ≤ 5) := by
      intro es
      induction es with
      | nil => intro qs h; simpa using h
      | cons e es ih => intro qs h; exact ih _ (step qs e h)
    intro es
    exact aux es [] (by simp)
  · intro e1 e2 e3 e4 e5 e6
    rfl

/-- C9: when the primary intent is distribution (so the comparison and trend
flags that precede it in the decision tree are off) and the data shape has more
than 10 unique categories, `selectVisualization` chooses a histogram with
`bins = min(20, ceil(sqrt(recordCount)))`. -/
theorem distribution_histogram_bins (vt : QuestionTypes) (mt : MetricType)
    (dc : DataCharacteristics) (hc : vt.comparison = false) (ht : vt.trend = false)
    (hd : vt.distribution = true) (hu : dc.uniqueCategories > 10) :
    selectVisualization vt mt dc =
      { type := "histogram",
        config := { bins := some (Nat.min 20 (ceilSqrt dc.recordCount)) } } := by
  unfold selectVisualization
  rw [hc, ht, hd]
  simp [hu]

/-- Witness for `distribution_histogram_bins`: `uniqueCategories = 15`,
`recordCount = 100` selects a histogram with `bins = 10`. -/
theorem distribution_histogram_bins_witness :
    ((⟨false, false, true, false, none⟩ : QuestionTypes).comparison = false ∧
      (⟨false, false, true, false, none⟩ : QuestionTypes).trend = false ∧
      (⟨false, false, true, false, none⟩ : QuestionTypes).distribution = true ∧
      (⟨100, false, 15, false⟩ : DataCharacteristics).uniqueCategories > 10) ∧
    selectVisualization ⟨false, false, true, false, none⟩ (default : MetricType)
        ⟨100, false, 15, false⟩ =
      { type := "histogram", config := { bins := some 10 } } :=
  ⟨⟨rfl, rfl, rfl, by decide⟩,
    (distribution_histogram_bins ⟨false, false, true, false, none⟩ default
      ⟨100, false, 15, false⟩ rfl rfl rfl (by decide)).trans (by decide)⟩

/-- C10 counterexample: `extractComparisonStates` on
`"Compare sales between New York and New Jersey"` returns the empty list (the
`between (\w+) and (\w+)` pattern admits only one word per side, so the phrase
does not match at all), not the claimed `["York", "New"]`. -/
theorem between_multiword_states_empty :
    extractComparisonStates "Compare sales between New York and New Jersey" = [] ∧
    extractComparisonStates "Compare sales between New York and New Jersey"
      ≠ ["York", "New"] :=
  ⟨rfl, by decide⟩

/-- C10 as amended: `extractComparisonStates` always returns either the empty
list (making the comparison branch fail) or exactly two names, each a single
non-empty word token (no whitespace can occur in a `\w+` capture) normalised to
title case — so the comparison branch never receives a multi-word state value.
A multi-word name in a `vs` phrase is reduced to the single adjacent word
(`"New York vs New Jersey"` yields `["York", "New"]`), while a multi-word name
in a `between ... and ...` phrase prevents the match entirely and yields `[]`. -/
theorem comparison_states_shape :
    (∀ question : String,
      extractComparisonStates question = [] ∨
      ∃ a b : List Char,
        a ≠ [] ∧ a.all isWordChar = true ∧ b ≠ [] ∧ b.all isWordChar = true ∧
        extractComparisonStates question =
          [capitalizeState (String.mk a), capitalizeState (String.mk b)]) ∧
    extractComparisonStates "New York vs New Jersey" = ["York", "New"] ∧
    extractComparisonStates "Compare sales between New York and New Jersey" = [] := by
  refine ⟨?_, rfl, rfl⟩
  intro question
  unfold extractComparisonStates
  cases hb : betweenMatchList (toLowerString question).toList with
  | some p =>
    obtain ⟨a, b⟩ := p
    obtain ⟨⟨ha1, ha2⟩, hb1, hb2⟩ := betweenMatchList_spec hb
    have hb' : betweenMatchList (toLowerString question).data = some (a, b) := hb
    right
    exact ⟨a, b, ha1, ha2, hb1, hb2, by simp [hb']⟩
  | none =>
    have hb' : betweenMatchList (toLowerString question).data = none := hb
    cases hv : vsMatchList (toLowerString question).toList with
    | some p =>
      obtain ⟨a, b⟩ := p
      obtain ⟨⟨ha1, ha2⟩, hb1, hb2⟩ := vsMatchList_spec hv
      have hv' : vsMatchList (toLowerString question).data = some (a, b) := hv
      right
      exact ⟨a, b, ha1, ha2, hb1, hb2, by simp [hb', hv']⟩
    | none =>
      have hv' : vsMatchList (toLowerString question).data = none := hv
      left
      simp [hb', hv']

end SalesAnalytics
